import Mathlib

/-
Verification of the geocache icon extractor
(theia-extensions/zones/scripts/cut-geocache-icons.py).

The script is embedded shallowly: a run is modelled as a pure function
from an environment (availability of PIL, existence of the sprite file,
the decode outcome, and a per-file save oracle) to a trace of observable
events (console prints, creation of the output directory, file writes)
together with the process exit code and the final success counter.
Filesystem effects are recovered from the trace by folding the write
events over a map from paths to file contents.
-/

namespace GeocacheIcons

/-- A decoded raster image: a width, a height and a pixel lookup
function.  Pixel values are abstract colors encoded as natural numbers;
position (i, j) is column i, row j.  Models an in-memory PIL image. -/
structure Img where
  width : Nat
  height : Nat
  pix : Nat → Nat → Nat

/-- Model of PIL Image.crop applied to the box (left, upper, right,
lower): the result has size (right - left) x (lower - upper); pixel
(i, j) of the result is pixel (left + i, upper + j) of the source when
that position lies inside the source, and the fill value 0 otherwise.
PIL pads a crop box that extends beyond the source with fill pixels
instead of raising, so crop is total. -/
def crop (img : Img) (left upper right lower : Nat) : Img where
  width := right - left
  height := lower - upper
  pix := fun i j =>
    if left + i < img.width ∧ upper + j < img.height then
      img.pix (left + i) (upper + j)
    else 0

/-- One entry of the ICONS table: the output name of the icon and the
position (x, y) and size (w, h) of its region inside the sprite sheet. -/
structure IconDesc where
  name : String
  x : Nat
  y : Nat
  w : Nat
  h : Nat
deriving DecidableEq

/-- The compiled-in table ICONS of the script: sixteen icon descriptors
(name, x, y, width, height). -/
def ICONS : List IconDesc :=
  [⟨"traditional", 0, 0, 50, 50⟩,
   ⟨"ape", 100, 0, 50, 50⟩,
   ⟨"hq", 200, 0, 50, 50⟩,
   ⟨"multi", 300, 0, 50, 50⟩,
   ⟨"event", 400, 0, 50, 50⟩,
   ⟨"cito", 500, 0, 50, 50⟩,
   ⟨"mega", 600, 0, 50, 50⟩,
   ⟨"giga", 700, 0, 50, 50⟩,
   ⟨"maze", 800, 0, 50, 50⟩,
   ⟨"earth", 900, 0, 50, 50⟩,
   ⟨"virtual", 1000, 0, 50, 50⟩,
   ⟨"webcam", 1100, 0, 50, 50⟩,
   ⟨"locationless", 1200, 0, 50, 50⟩,
   ⟨"mystery", 1300, 0, 50, 50⟩,
   ⟨"letterbox", 1400, 0, 50, 50⟩,
   ⟨"wherigo", 1500, 0, 50, 50⟩]

/-- SPRITE_PATH of the script, written relative to the project root (the
source resolves it from the script location as PROJECT_ROOT joined with
this relative path). -/
def SPRITE_PATH : String := "src/browser/assets/geocaching-sprite.png"

/-- OUTPUT_DIR of the script, written relative to the project root. -/
def OUTPUT_DIR : String := "src/browser/assets/geocache-icons"

/-- The output path OUTPUT_DIR / (name ++ ".png") used for each icon. -/
def outputPath (name : String) : String := OUTPUT_DIR ++ "/" ++ name ++ ".png"

/-- An observable event of a run: a console print, the creation of the
output directory (mkdir with parents=True and exist_ok=True, so it also
creates missing parent directories and succeeds when the directory
already exists), or the write of a file. -/
inductive Ev where
  | print (msg : String)
  | mkdirOutput
  | writeFile (path : String) (content : Img)

/-- The per-icon success line of the loop (output_path.name is the file
name component, name ++ ".png"). -/
def okLine (d : IconDesc) : String :=
  "   ✓ " ++ d.name ++ ".png (" ++ toString d.x ++ ", " ++ toString d.y ++
    ") -> " ++ d.name ++ ".png"

/-- The per-icon error line of the loop, naming the icon and the caught
exception text. -/
def errLine (name e : String) : String :=
  "   ❌ Erreur avec " ++ name ++ ": " ++ e

/-- The separator line, 50 repetitions of the equals sign. -/
def sepLine : String := String.mk (List.replicate 50 '=')

def bannerLine : String := "🗺️  Découpage des icônes de géocaches"

def pilErr1 : String := "❌ Erreur : PIL/Pillow n’est pas installé"

def pilErr2 : String := "📦 Installez-le avec : pip install Pillow"

def spriteMissing1 : String := "❌ Erreur : Sprite sheet introuvable"

def spriteMissing2 : String := "   Cherché dans : " ++ SPRITE_PATH

def spriteMissing3 : String :=
  "\n💡 Vérifiez que le fichier geocaching-sprite.png existe"

def spriteFound : String := "✓ Sprite trouvé : " ++ SPRITE_PATH

def outDirLine : String := "✓ Dossier de sortie : " ++ OUTPUT_DIR

/-- The diagnostic printed when Image.open raises, carrying the
exception text. -/
def openErrLine (e : String) : String :=
  "❌ Erreur lors de l’ouverture du sprite : " ++ e

def loadedLine (img : Img) : String :=
  "✓ Sprite chargé : " ++ toString img.width ++ "x" ++ toString img.height ++
    " pixels"

def cutHeader : String := "\n📐 Découpage en cours..."

def doneLine (cnt total : Nat) : String :=
  "🎉 Terminé ! " ++ toString cnt ++ "/" ++ toString total ++ " icônes créées"

def allOkLine : String :=
  "\n✨ Toutes les icônes ont été découpées avec succès !"

def compileLine : String :=
  "🚀 Vous pouvez maintenant compiler et tester la carte"

def failSummaryLine (missing : Nat) : String :=
  "\n⚠️  " ++ toString missing ++ " icône(s) n’ont pas pu être créées"

def savedInLine : String := "\n📁 Icônes sauvegardées dans :"

/-- Events of one iteration of the icon loop.  The save oracle gives, per
icon name, the exception text raised while cropping or saving that icon
(none when the iteration succeeds).  On failure the exception is caught
and only the error line is printed; on success the file is written and
the success line printed, matching the try/except body of the loop. -/
def iconEvents (sprite : Img) (save : String → Option String)
    (d : IconDesc) : List Ev :=
  match save d.name with
  | some e => [Ev.print (errLine d.name e)]
  | none =>
    [Ev.writeFile (outputPath d.name)
       (crop sprite d.x d.y (d.x + d.w) (d.y + d.h)),
     Ev.print (okLine d)]

/-- The icon loop over a descriptor list: the concatenated per-icon
events together with the final value of success_count. -/
def runIcons (sprite : Img) (save : String → Option String) :
    List IconDesc → List Ev × Nat
  | [] => ([], 0)
  | d :: rest =>
    let r := runIcons sprite save rest
    (iconEvents sprite save d ++ r.1,
     (if (save d.name).isNone then 1 else 0) + r.2)

/-- The summary block printed after the loop, as a function of the final
success_count. -/
def summaryEvents (cnt : Nat) : List Ev :=
  [Ev.print ("\n" ++ sepLine), Ev.print (doneLine cnt ICONS.length)] ++
  (if cnt = ICONS.length then
    [Ev.print allOkLine, Ev.print compileLine]
   else
    [Ev.print (failSummaryLine (ICONS.length - cnt))]) ++
  [Ev.print savedInLine, Ev.print ("   " ++ OUTPUT_DIR)]

/-- The run environment: whether the PIL import succeeds, whether the
sprite file exists, the outcome of Image.open (none when it raises, with
decodeError as the exception text), and the save oracle for the icon
loop. -/
structure Env where
  pilAvailable : Bool
  spriteExists : Bool
  decoded : Option Img
  decodeError : String
  save : String → Option String

/-- The outcome of a run: the event trace, the process exit code and the
final success_count. -/
structure RunResult where
  trace : List Ev
  exitCode : Nat
  successCount : Nat

/-- The events preceding the icon loop on the fully successful control
path: banner, separator, sprite-found line, creation of the output
directory, output-directory line, loaded line, loop header. -/
def prefixEvents (img : Img) : List Ev :=
  [Ev.print bannerLine, Ev.print sepLine, Ev.print spriteFound,
   Ev.mkdirOutput, Ev.print outDirLine, Ev.print (loadedLine img),
   Ev.print cutHeader]

/-- The whole process: the import-time PIL guard, then main.  Each early
exit calls sys.exit(1); normal completion of main returns exit code 0
regardless of per-icon failures. -/
def runProcess (env : Env) : RunResult :=
  if env.pilAvailable = false then
    ⟨[Ev.print pilErr1, Ev.print pilErr2], 1, 0⟩
  else if env.spriteExists = false then
    ⟨[Ev.print bannerLine, Ev.print sepLine, Ev.print spriteMissing1,
      Ev.print spriteMissing2, Ev.print spriteMissing3], 1, 0⟩
  else
    match env.decoded with
    | none =>
      ⟨[Ev.print bannerLine, Ev.print sepLine, Ev.print spriteFound,
        Ev.mkdirOutput, Ev.print outDirLine,
        Ev.print (openErrLine env.decodeError)], 1, 0⟩
    | some sprite =>
      let r := runIcons sprite env.save ICONS
      ⟨prefixEvents sprite ++ r.1 ++ summaryEvents r.2, 0, r.2⟩

/-- The environment of a run whose fatal preconditions all hold: PIL
imports, the sprite file exists and decodes to img, and per-icon saves
behave as the given oracle. -/
def fullEnv (img : Img) (save : String → Option String) : Env :=
  ⟨true, true, some img, "", save⟩

/-- The write events of a trace, in order, as (path, content) pairs. -/
def writesOf : List Ev → List (String × Img)
  | [] => []
  | Ev.writeFile p c :: rest => (p, c) :: writesOf rest
  | _ :: rest => writesOf rest

/-- The printed lines of a trace, in order. -/
def printsOf : List Ev → List String
  | [] => []
  | Ev.print m :: rest => m :: printsOf rest
  | _ :: rest => printsOf rest

/-- Whether a trace contains the creation of the output directory. -/
def hasMkdir : List Ev → Bool
  | [] => false
  | Ev.mkdirOutput :: _ => true
  | _ :: rest => hasMkdir rest

/-- True when no file write occurs before the output directory has been
created: scanning the trace in order, the first directory-or-write event
encountered, if any, is the mkdir. -/
def mkdirBeforeWrites : List Ev → Bool
  | [] => true
  | Ev.mkdirOutput :: _ => true
  | Ev.writeFile _ _ :: _ => false
  | _ :: rest => mkdirBeforeWrites rest

/-- A file-system fragment: the contents of files by path.  A decoded
image stands for the byte content of its encoded file; the PNG encoding
of a pixel region is deterministic, so equal images denote byte-identical
files. -/
def FS := String → Option Img

/-- Effect of one event on the file system: a write replaces the content
at its path (creating or silently overwriting the file); prints and the
idempotent mkdir leave file contents unchanged. -/
def applyEv (fs : FS) : Ev → FS
  | Ev.writeFile p c => fun q => if q = p then some c else fs q
  | _ => fs

/-- Effect of a whole trace on the file system, applied in order. -/
def applyTrace (fs : FS) : List Ev → FS
  | [] => fs
  | e :: rest => applyTrace (applyEv fs e) rest

/-- The content left at path q by a list of writes, the later writes
taking precedence. -/
def lookupLast : List (String × Img) → String → Option Img
  | [], _ => none
  | (p, c) :: rest, q =>
    match lookupLast rest q with
    | some c2 => some c2
    | none => if q = p then some c else none

/-- Concrete 1550 x 50 image used to exercise the theorems: every
descriptor region lies inside it. -/
def wideImg : Img := ⟨1550, 50, fun i j => i + 1550 * j + 1⟩

/-- Concrete 1500 x 50 image used to exercise the theorems: the wherigo
region (x = 1500) lies beyond its right edge. -/
def narrowImg : Img := ⟨1500, 50, fun i j => i + 1500 * j + 1⟩

/-- The wherigo descriptor, last entry of ICONS. -/
def wherigoDesc : IconDesc := ⟨"wherigo", 1500, 0, 50, 50⟩

/-- Environment in which the PIL import fails. -/
def envNoPil : Env := ⟨false, true, none, "", fun _ => none⟩

/-- Environment in which PIL imports but the sprite file is absent. -/
def envNoSprite : Env := ⟨true, false, none, "", fun _ => none⟩

/-- Environment in which the sprite file exists but Image.open raises. -/
def envBadDecode : Env :=
  ⟨true, true, none, "cannot identify image file", fun _ => none⟩

/-- A save oracle that fails exactly on the mystery icon. -/
def failMystery : String → Option String := fun n =>
  if n = "mystery" then some "Permission denied" else none

theorem runProcess_fullEnv (img : Img) (save : String → Option String) :
    runProcess (fullEnv img save) =
      ⟨prefixEvents img ++ (runIcons img save ICONS).1 ++
        summaryEvents (runIcons img save ICONS).2, 0,
        (runIcons img save ICONS).2⟩ := rfl

theorem writesOf_append (a b : List Ev) :
    writesOf (a ++ b) = writesOf a ++ writesOf b := by
  induction a with
  | nil => rfl
  | cons e rest ih => cases e <;> simp [writesOf, ih]

theorem printsOf_append (a b : List Ev) :
    printsOf (a ++ b) = printsOf a ++ printsOf b := by
  induction a with
  | nil => rfl
  | cons e rest ih => cases e <;> simp [printsOf, ih]

theorem runIcons_count_le (sprite : Img) (save : String → Option String)
    (L : List IconDesc) : (runIcons sprite save L).2 ≤ L.length := by
  induction L with
  | nil => simp [runIcons]
  | cons d rest ih =>
    simp only [runIcons, List.length_cons]
    cases h : (save d.name).isNone <;> simp [h] <;> omega

theorem runIcons_count (sprite : Img) (save : String → Option String)
    (L : List IconDesc) :
    (runIcons sprite save L).2 =
      (L.filter (fun d => (save d.name).isNone)).length := by
  induction L with
  | nil => rfl
  | cons d rest ih =>
    simp only [runIcons, List.filter_cons]
    cases h : (save d.name).isNone with
    | false => simp [h, ih]
    | true => simp [h, ih]; omega

theorem writesOf_runIcons (sprite : Img) (save : String → Option String)
    (L : List IconDesc) (hs : ∀ d ∈ L, save d.name = none) :
    writesOf (runIcons sprite save L).1 =
      L.map (fun d =>
        (outputPath d.name, crop sprite d.x d.y (d.x + d.w) (d.y + d.h))) := by
  induction L with
  | nil => rfl
  | cons d rest ih =>
    have hd := hs d (by simp)
    simp [runIcons, writesOf_append, iconEvents, hd, writesOf,
      ih (fun e he => hs e (by simp [he]))]

theorem writesOf_runIcons_mem (sprite : Img) (save : String → Option String)
    (L : List IconDesc) (p : String) (c : Img)
    (h : (p, c) ∈ writesOf (runIcons sprite save L).1) :
    ∃ d ∈ L, p = outputPath d.name ∧
      c = crop sprite d.x d.y (d.x + d.w) (d.y + d.h) := by
  induction L with
  | nil => simp [runIcons, writesOf] at h
  | cons d rest ih =>
    simp only [runIcons, writesOf_append, List.mem_append] at h
    rcases h with h | h
    · cases hs : save d.name with
      | some e => simp [iconEvents, hs, writesOf] at h
      | none =>
        simp [iconEvents, hs, writesOf] at h
        exact ⟨d, by simp, h.1, h.2⟩
    · obtain ⟨d2, hd2, hp, hc⟩ := ih h
      exact ⟨d2, by simp [hd2], hp, hc⟩

theorem runIcons_mem_write (sprite : Img) (save : String → Option String)
    (L : List IconDesc) (d : IconDesc) (hd : d ∈ L)
    (hs : save d.name = none) :
    (outputPath d.name, crop sprite d.x d.y (d.x + d.w) (d.y + d.h)) ∈
      writesOf (runIcons sprite save L).1 := by
  induction L with
  | nil => cases hd
  | cons a rest ih =>
    simp only [runIcons, writesOf_append, List.mem_append]
    rcases List.mem_cons.mp hd with h | h
    · subst h
      exact Or.inl (by simp [iconEvents, hs, writesOf])
    · exact Or.inr (ih h)

theorem runIcons_mem_err (sprite : Img) (save : String → Option String)
    (L : List IconDesc) (d : IconDesc) (e : String) (hd : d ∈ L)
    (hs : save d.name = some e) :
    errLine d.name e ∈ printsOf (runIcons sprite save L).1 := by
  induction L with
  | nil => cases hd
  | cons a rest ih =>
    simp only [runIcons, printsOf_append, List.mem_append]
    rcases List.mem_cons.mp hd with h | h
    · subst h
      exact Or.inl (by simp [iconEvents, hs, printsOf])
    · exact Or.inr (ih h)

theorem crop_width (img : Img) (x y w h : Nat) :
    (crop img x y (x + w) (y + h)).width = w := by
  simp [crop]

theorem crop_height (img : Img) (x y w h : Nat) :
    (crop img x y (x + w) (y + h)).height = h := by
  simp [crop]

theorem crop_pix_in (img : Img) (x y w h i j : Nat)
    (hx : x + w ≤ img.width) (hy : y + h ≤ img.height)
    (hi : i < w) (hj : j < h) :
    (crop img x y (x + w) (y + h)).pix i j = img.pix (x + i) (y + j) := by
  simp only [crop]
  rw [if_pos]
  omega

theorem crop_pix_fill (img : Img) (left upper right lower i j : Nat)
    (h : img.width ≤ left + i ∨ img.height ≤ upper + j) :
    (crop img left upper right lower).pix i j = 0 := by
  simp only [crop]
  rw [if_neg]
  omega

theorem icons_length : ICONS.length = 16 := rfl

theorem icons_bounds : ∀ d ∈ ICONS, d.x + d.w ≤ 1550 ∧ d.y + d.h ≤ 50 := by
  decide

theorem icons_pos : ∀ d ∈ ICONS, 0 < d.w ∧ 0 < d.h := by decide

theorem iconNames_nodup : (ICONS.map IconDesc.name).Nodup := by decide

theorem iconPaths_nodup :
    (ICONS.map (fun d => outputPath d.name)).Nodup := by decide

theorem okLine_ne_allOk (d : IconDesc) : okLine d ≠ allOkLine := by
  intro h
  have h2 := congrArg String.data h
  simp [okLine, allOkLine, String.data_append] at h2

theorem errLine_ne_allOk (name e : String) : errLine name e ≠ allOkLine := by
  intro h
  have h2 := congrArg String.data h
  simp [errLine, allOkLine, String.data_append] at h2

theorem doneLine_ne_allOk (a b : Nat) : doneLine a b ≠ allOkLine := by
  intro h
  have h2 := congrArg String.data h
  simp [doneLine, allOkLine, String.data_append] at h2

theorem failSummaryLine_ne_allOk (n : Nat) : failSummaryLine n ≠ allOkLine := by
  intro h
  have h2 := congrArg String.data h
  simp [failSummaryLine, allOkLine, String.data_append] at h2

theorem loadedLine_ne_allOk (img : Img) : loadedLine img ≠ allOkLine := by
  intro h
  have h2 := congrArg String.data h
  simp [loadedLine, allOkLine, String.data_append] at h2

theorem allOk_not_mem_runIcons (sprite : Img) (save : String → Option String)
    (L : List IconDesc) :
    allOkLine ∉ printsOf (runIcons sprite save L).1 := by
  induction L with
  | nil => simp [runIcons, printsOf]
  | cons d rest ih =>
    simp only [runIcons, printsOf_append, List.mem_append]
    rintro (h | h)
    · cases hs : save d.name with
      | some e =>
        simp [iconEvents, hs, printsOf] at h
        exact errLine_ne_allOk d.name e h.symm
      | none =>
        simp [iconEvents, hs, printsOf] at h
        exact okLine_ne_allOk d h.symm
    · exact ih h

theorem applyTrace_eq_lookupLast (tr : List Ev) (fs : FS) (q : String) :
    applyTrace fs tr q =
      match lookupLast (writesOf tr) q with
      | some c => some c
      | none => fs q := by
  induction tr generalizing fs with
  | nil => rfl
  | cons e rest ih =>
    cases e with
    | print m => simpa [applyTrace, applyEv, writesOf] using ih fs
    | mkdirOutput => simpa [applyTrace, applyEv, writesOf] using ih fs
    | writeFile p c =>
      show applyTrace (applyEv fs (Ev.writeFile p c)) rest q = _
      rw [ih]
      simp only [applyEv, writesOf, lookupLast]
      cases hl : lookupLast (writesOf rest) q with
      | some c2 => simp
      | none => by_cases hq : q = p <;> simp [hq]

theorem applyTrace_idem (tr : List Ev) (fs : FS) :
    applyTrace (applyTrace fs tr) tr = applyTrace fs tr := by
  funext q
  rw [applyTrace_eq_lookupLast, applyTrace_eq_lookupLast]
  cases hl : lookupLast (writesOf tr) q with
  | some c => rfl
  | none => simp [applyTrace_eq_lookupLast, hl]

theorem lookupLast_eq_none (l : List (String × Img)) (q : String)
    (h : ∀ p c, (p, c) ∈ l → q ≠ p) : lookupLast l q = none := by
  induction l with
  | nil => rfl
  | cons pc rest ih =>
    obtain ⟨p, c⟩ := pc
    simp only [lookupLast]
    rw [ih (fun p2 c2 h2 => h p2 c2 (by simp [h2]))]
    simp [h p c (by simp)]

theorem applyTrace_not_written (tr : List Ev) (fs : FS) (q : String)
    (h : ∀ p c, (p, c) ∈ writesOf tr → q ≠ p) :
    applyTrace fs tr q = fs q := by
  rw [applyTrace_eq_lookupLast, lookupLast_eq_none _ _ h]

theorem lookupLast_map (f : IconDesc → Img) (L : List IconDesc) (d : IconDesc)
    (hL : (L.map (fun x => outputPath x.name)).Nodup) (hd : d ∈ L) :
    lookupLast (L.map fun x => (outputPath x.name, f x)) (outputPath d.name) =
      some (f d) := by
  induction L with
  | nil => cases hd
  | cons a rest ih =>
    rw [List.map_cons] at hL
    have hnd := List.nodup_cons.mp hL
    simp only [List.map_cons, lookupLast]
    rcases List.mem_cons.mp hd with h | h
    · subst h
      rw [lookupLast_eq_none]
      · simp
      · intro p c hpc hq
        apply hnd.1
        obtain ⟨x, hxmem, hx⟩ := List.mem_map.mp hpc
        have hp : p = outputPath x.name := by
          have h3 := congrArg Prod.fst hx
          simpa using h3.symm
        rw [hq, hp]
        exact List.mem_map.mpr ⟨x, hxmem, rfl⟩
    · rw [ih hnd.2 h]

theorem trace_fullEnv (img : Img) (save : String → Option String) :
    (runProcess (fullEnv img save)).trace =
      prefixEvents img ++ (runIcons img save ICONS).1 ++
        summaryEvents (runIcons img save ICONS).2 := rfl

theorem exitCode_fullEnv (img : Img) (save : String → Option String) :
    (runProcess (fullEnv img save)).exitCode = 0 := rfl

theorem successCount_fullEnv (img : Img) (save : String → Option String) :
    (runProcess (fullEnv img save)).successCount =
      (runIcons img save ICONS).2 := rfl

theorem writesOf_summaryEvents (cnt : Nat) :
    writesOf (summaryEvents cnt) = [] := by
  by_cases hc : cnt = ICONS.length <;>
    simp [summaryEvents, hc, writesOf_append, writesOf]

theorem writesOf_fullEnv (img : Img) (save : String → Option String) :
    writesOf (runProcess (fullEnv img save)).trace =
      writesOf (runIcons img save ICONS).1 := by
  rw [trace_fullEnv]
  simp [writesOf_append, writesOf_summaryEvents]
  rfl

theorem writesOf_fullEnv_none (img : Img) :
    writesOf (runProcess (fullEnv img (fun _ => none))).trace =
      ICONS.map (fun d =>
        (outputPath d.name, crop img d.x d.y (d.x + d.w) (d.y + d.h))) := by
  rw [writesOf_fullEnv, writesOf_runIcons]
  intro d _
  rfl

theorem printsOf_fullEnv (img : Img) (save : String → Option String) :
    printsOf (runProcess (fullEnv img save)).trace =
      printsOf (prefixEvents img) ++
        printsOf (runIcons img save ICONS).1 ++
        printsOf (summaryEvents (runIcons img save ICONS).2) := by
  rw [trace_fullEnv]
  simp [printsOf_append]

theorem sepNl_ne_allOk : ("\n" ++ sepLine) ≠ allOkLine := by decide

theorem spriteFound_ne_allOk : spriteFound ≠ allOkLine := by
  intro h
  have h2 := congrArg String.data h
  simp [spriteFound, SPRITE_PATH, allOkLine, String.data_append] at h2

theorem outDirLine_ne_allOk : outDirLine ≠ allOkLine := by
  intro h
  have h2 := congrArg String.data h
  simp [outDirLine, OUTPUT_DIR, allOkLine, String.data_append] at h2

theorem outDirTail_ne_allOk : ("   " ++ OUTPUT_DIR) ≠ allOkLine := by
  intro h
  have h2 := congrArg String.data h
  simp [OUTPUT_DIR, allOkLine, String.data_append] at h2

theorem allOk_mem_summary_iff (cnt : Nat) :
    allOkLine ∈ printsOf (summaryEvents cnt) ↔ cnt = ICONS.length := by
  by_cases hc : cnt = ICONS.length
  · simp [summaryEvents, hc, printsOf_append, printsOf]
  · refine iff_of_false ?_ hc
    have n1 := Ne.symm sepNl_ne_allOk
    have n2 := Ne.symm (doneLine_ne_allOk cnt ICONS.length)
    have n3 := Ne.symm (failSummaryLine_ne_allOk (ICONS.length - cnt))
    have n4 : allOkLine ≠ savedInLine := by decide
    have n5 := Ne.symm outDirTail_ne_allOk
    simp [summaryEvents, hc, printsOf_append, printsOf, n1, n2, n3, n4, n5]

theorem doneLine_mem_summary (cnt : Nat) :
    doneLine cnt ICONS.length ∈ printsOf (summaryEvents cnt) := by
  by_cases hc : cnt = ICONS.length <;>
    simp [summaryEvents, hc, printsOf_append, printsOf]

theorem failLine_mem_summary (cnt : Nat) (hc : cnt ≠ ICONS.length) :
    failSummaryLine (ICONS.length - cnt) ∈ printsOf (summaryEvents cnt) := by
  simp [summaryEvents, hc, printsOf_append, printsOf]

theorem getLast_summaryEvents (cnt : Nat) :
    (summaryEvents cnt).getLast? = some (Ev.print ("   " ++ OUTPUT_DIR)) := by
  by_cases hc : cnt = ICONS.length <;> simp [summaryEvents, hc]

theorem writesOf_prefixEvents (img : Img) :
    writesOf (prefixEvents img) = [] := rfl

theorem summaryEvents_ne_nil (cnt : Nat) : summaryEvents cnt ≠ [] := by
  by_cases hc : cnt = ICONS.length <;> simp [summaryEvents, hc]

theorem allOk_not_mem_prefix (img : Img) :
    allOkLine ∉ printsOf (prefixEvents img) := by
  have n1 : allOkLine ≠ bannerLine := by decide
  have n2 : allOkLine ≠ sepLine := by decide
  have n3 := Ne.symm spriteFound_ne_allOk
  have n4 := Ne.symm outDirLine_ne_allOk
  have n5 := Ne.symm (loadedLine_ne_allOk img)
  have n6 : allOkLine ≠ cutHeader := by decide
  simp [prefixEvents, printsOf, n1, n2, n3, n4, n5, n6]

/-- C10: the 16 compiled-in descriptor names are pairwise distinct, so
the 16 output file paths OUTPUT_DIR/name.png are pairwise distinct and no
icon extraction overwrites the output of another descriptor in the same
run. -/
theorem c10_descriptor_names_and_paths_distinct :
    (ICONS.map IconDesc.name).Nodup ∧
    (ICONS.map (fun d => outputPath d.name)).Nodup ∧
    ∀ d ∈ ICONS, ∀ e ∈ ICONS, d ≠ e →
      outputPath d.name ≠ outputPath e.name := by
  refine ⟨iconNames_nodup, iconPaths_nodup, ?_⟩
  decide

/-- C5: if PIL/Pillow is unavailable, the process fails immediately at
startup with the two setup-guidance messages and exit status 1, before
any file I/O: the trace is exactly those two prints, with no directory
creation and no file write, and the file system is left unchanged; the
guard runs once at startup, before any per-icon processing. -/
theorem c5_pil_missing_aborts_at_startup (env : Env)
    (hp : env.pilAvailable = false) :
    (runProcess env).exitCode = 1 ∧
    (runProcess env).trace = [Ev.print pilErr1, Ev.print pilErr2] ∧
    writesOf (runProcess env).trace = [] ∧
    hasMkdir (runProcess env).trace = false ∧
    ∀ fs, applyTrace fs (runProcess env).trace = fs := by
  have htr : runProcess env = ⟨[Ev.print pilErr1, Ev.print pilErr2], 1, 0⟩ := by
    simp [runProcess, hp]
  rw [htr]
  exact ⟨rfl, rfl, rfl, rfl, fun fs => rfl⟩

/-- Witness for C5 at the concrete environment envNoPil. -/
theorem c5_witness :
    envNoPil.pilAvailable = false ∧
    ((runProcess envNoPil).exitCode = 1 ∧
     (runProcess envNoPil).trace = [Ev.print pilErr1, Ev.print pilErr2] ∧
     writesOf (runProcess envNoPil).trace = [] ∧
     hasMkdir (runProcess envNoPil).trace = false ∧
     ∀ fs, applyTrace fs (runProcess envNoPil).trace = fs) :=
  ⟨rfl, c5_pil_missing_aborts_at_startup envNoPil rfl⟩

/-- C4: if the sprite file does not exist, the run prints a diagnostic
naming the expected path, exits with status 1, writes no file, and does
not create the output directory (the existence check precedes directory
creation); the file system is left unchanged. -/
theorem c4_missing_sprite_aborts_before_mkdir (env : Env)
    (hp : env.pilAvailable = true) (hs : env.spriteExists = false) :
    (runProcess env).exitCode = 1 ∧
    ("   Cherché dans : " ++ SPRITE_PATH) ∈
      printsOf (runProcess env).trace ∧
    writesOf (runProcess env).trace = [] ∧
    hasMkdir (runProcess env).trace = false ∧
    ∀ fs, applyTrace fs (runProcess env).trace = fs := by
  have htr : runProcess env = ⟨[Ev.print bannerLine, Ev.print sepLine,
      Ev.print spriteMissing1, Ev.print spriteMissing2,
      Ev.print spriteMissing3], 1, 0⟩ := by
    simp [runProcess, hp, hs]
  rw [htr]
  refine ⟨rfl, ?_, rfl, rfl, fun fs => rfl⟩
  simp [printsOf, spriteMissing2]

/-- Witness for C4 at the concrete environment envNoSprite. -/
theorem c4_witness :
    envNoSprite.pilAvailable = true ∧ envNoSprite.spriteExists = false ∧
    ((runProcess envNoSprite).exitCode = 1 ∧
     ("   Cherché dans : " ++ SPRITE_PATH) ∈
       printsOf (runProcess envNoSprite).trace ∧
     writesOf (runProcess envNoSprite).trace = [] ∧
     hasMkdir (runProcess envNoSprite).trace = false ∧
     ∀ fs, applyTrace fs (runProcess envNoSprite).trace = fs) :=
  ⟨rfl, rfl, c4_missing_sprite_aborts_before_mkdir envNoSprite rfl rfl⟩

/-- C6: if the sprite file exists but fails to decode, the run prints a
diagnostic carrying the underlying cause (the exception text), exits with
status 1, performs no crop and writes no output file: the file system is
left unchanged. -/
theorem c6_undecodable_sprite_aborts (env : Env)
    (hp : env.pilAvailable = true) (hs : env.spriteExists = true)
    (hd : env.decoded = none) :
    (runProcess env).exitCode = 1 ∧
    ("❌ Erreur lors de l’ouverture du sprite : " ++ env.decodeError) ∈
      printsOf (runProcess env).trace ∧
    writesOf (runProcess env).trace = [] ∧
    ∀ fs, applyTrace fs (runProcess env).trace = fs := by
  have htr : runProcess env = ⟨[Ev.print bannerLine, Ev.print sepLine,
      Ev.print spriteFound, Ev.mkdirOutput, Ev.print outDirLine,
      Ev.print (openErrLine env.decodeError)], 1, 0⟩ := by
    simp [runProcess, hp, hs, hd]
  rw [htr]
  refine ⟨rfl, ?_, rfl, fun fs => rfl⟩
  simp [printsOf, openErrLine]

/-- Witness for C6 at the concrete environment envBadDecode. -/
theorem c6_witness :
    envBadDecode.pilAvailable = true ∧ envBadDecode.spriteExists = true ∧
    envBadDecode.decoded = none ∧
    ((runProcess envBadDecode).exitCode = 1 ∧
     ("❌ Erreur lors de l’ouverture du sprite : " ++
        envBadDecode.decodeError) ∈ printsOf (runProcess envBadDecode).trace ∧
     writesOf (runProcess envBadDecode).trace = [] ∧
     ∀ fs, applyTrace fs (runProcess envBadDecode).trace = fs) :=
  ⟨rfl, rfl, rfl, c6_undecodable_sprite_aborts envBadDecode rfl rfl rfl⟩

/-- C1: given a source image of at least 1550 x 50 pixels that decodes
successfully (and no save failure), the run writes exactly the 16 files
OUTPUT_DIR/name.png, one per descriptor in order, and each written image
is exactly the w x h region of the source starting at (x, y) with
exclusive right and bottom edges. -/
theorem c1_sixteen_exact_icons (img : Img)
    (hw : 1550 ≤ img.width) (hh : 50 ≤ img.height) :
    writesOf (runProcess (fullEnv img (fun _ => none))).trace =
      ICONS.map (fun d =>
        (outputPath d.name, crop img d.x d.y (d.x + d.w) (d.y + d.h))) ∧
    (writesOf (runProcess (fullEnv img (fun _ => none))).trace).length = 16 ∧
    ∀ d ∈ ICONS,
      (crop img d.x d.y (d.x + d.w) (d.y + d.h)).width = d.w ∧
      (crop img d.x d.y (d.x + d.w) (d.y + d.h)).height = d.h ∧
      ∀ i j, i < d.w → j < d.h →
        (crop img d.x d.y (d.x + d.w) (d.y + d.h)).pix i j =
          img.pix (d.x + i) (d.y + j) := by
  refine ⟨writesOf_fullEnv_none img, ?_, ?_⟩
  · rw [writesOf_fullEnv_none img, List.length_map, icons_length]
  · intro d hd
    have hb := icons_bounds d hd
    refine ⟨crop_width img d.x d.y d.w d.h,
      crop_height img d.x d.y d.w d.h, ?_⟩
    intro i j hi hj
    exact crop_pix_in img d.x d.y d.w d.h i j (le_trans hb.1 hw)
      (le_trans hb.2 hh) hi hj

/-- Witness for C1 at the concrete 1550 x 50 image wideImg. -/
theorem c1_witness :
    1550 ≤ wideImg.width ∧ 50 ≤ wideImg.height ∧
    (writesOf (runProcess (fullEnv wideImg (fun _ => none))).trace =
       ICONS.map (fun d =>
         (outputPath d.name, crop wideImg d.x d.y (d.x + d.w) (d.y + d.h))) ∧
     (writesOf
        (runProcess (fullEnv wideImg (fun _ => none))).trace).length = 16 ∧
     ∀ d ∈ ICONS,
       (crop wideImg d.x d.y (d.x + d.w) (d.y + d.h)).width = d.w ∧
       (crop wideImg d.x d.y (d.x + d.w) (d.y + d.h)).height = d.h ∧
       ∀ i j, i < d.w → j < d.h →
         (crop wideImg d.x d.y (d.x + d.w) (d.y + d.h)).pix i j =
           wideImg.pix (d.x + i) (d.y + j)) :=
  ⟨by decide, by decide, c1_sixteen_exact_icons wideImg (by decide) (by decide)⟩

/-- C2: on the success control path, each per-icon failure is caught
individually: the run exits with status 0 whatever the save oracle does,
the success counter counts exactly the descriptors whose save succeeds,
every failing icon is logged with its name and the exception text, every
succeeding icon still has its file written regardless of the other
descriptors, and the loop completes so the summary line is printed. -/
theorem c2_per_icon_failures_isolated (img : Img)
    (save : String → Option String) :
    (runProcess (fullEnv img save)).exitCode = 0 ∧
    (runProcess (fullEnv img save)).successCount =
      (ICONS.filter (fun d => (save d.name).isNone)).length ∧
    (∀ d ∈ ICONS, ∀ e, save d.name = some e →
      errLine d.name e ∈ printsOf (runProcess (fullEnv img save)).trace) ∧
    (∀ d ∈ ICONS, save d.name = none →
      (outputPath d.name, crop img d.x d.y (d.x + d.w) (d.y + d.h)) ∈
        writesOf (runProcess (fullEnv img save)).trace) ∧
    doneLine (runProcess (fullEnv img save)).successCount ICONS.length ∈
      printsOf (runProcess (fullEnv img save)).trace := by
  refine ⟨rfl, ?_, ?_, ?_, ?_⟩
  · rw [successCount_fullEnv, runIcons_count]
  · intro d hd e hs
    rw [printsOf_fullEnv]
    exact List.mem_append.mpr (Or.inl (List.mem_append.mpr
      (Or.inr (runIcons_mem_err img save ICONS d e hd hs))))
  · intro d hd hs
    rw [writesOf_fullEnv]
    exact runIcons_mem_write img save ICONS d hd hs
  · rw [printsOf_fullEnv, successCount_fullEnv]
    exact List.mem_append.mpr (Or.inr (doneLine_mem_summary _))

/-- C3: if a descriptor of ICONS has a rectangle exceeding the decoded
source bounds, the run still exits with status 0; that icon file is
written but degraded — it has a pixel inside its w x h extent whose
source position lies outside the image and which holds the fill value 0
instead of sprite content — while every in-bounds descriptor still has
its file written with exactly the pixels of its source region. -/
theorem c3_out_of_bounds_icon_degraded (img : Img) (d : IconDesc)
    (hd : d ∈ ICONS)
    (hoob : img.width < d.x + d.w ∨ img.height < d.y + d.h) :
    (runProcess (fullEnv img (fun _ => none))).exitCode = 0 ∧
    (outputPath d.name, crop img d.x d.y (d.x + d.w) (d.y + d.h)) ∈
      writesOf (runProcess (fullEnv img (fun _ => none))).trace ∧
    (∃ i j, i < d.w ∧ j < d.h ∧
      (img.width ≤ d.x + i ∨ img.height ≤ d.y + j) ∧
      (crop img d.x d.y (d.x + d.w) (d.y + d.h)).pix i j = 0) ∧
    ∀ e ∈ ICONS, e.x + e.w ≤ img.width → e.y + e.h ≤ img.height →
      (outputPath e.name, crop img e.x e.y (e.x + e.w) (e.y + e.h)) ∈
        writesOf (runProcess (fullEnv img (fun _ => none))).trace ∧
      ∀ i j, i < e.w → j < e.h →
        (crop img e.x e.y (e.x + e.w) (e.y + e.h)).pix i j =
          img.pix (e.x + i) (e.y + j) := by
  refine ⟨rfl, ?_, ?_, ?_⟩
  · rw [writesOf_fullEnv]
    exact runIcons_mem_write img _ ICONS d hd rfl
  · have hp := icons_pos d hd
    rcases hoob with h | h
    · exact ⟨d.w - 1, 0, by omega, hp.2, Or.inl (by omega),
        crop_pix_fill img d.x d.y _ _ _ _ (Or.inl (by omega))⟩
    · exact ⟨0, d.h - 1, hp.1, by omega, Or.inr (by omega),
        crop_pix_fill img d.x d.y _ _ _ _ (Or.inr (by omega))⟩
  · intro e he hex hey
    refine ⟨?_, ?_⟩
    · rw [writesOf_fullEnv]
      exact runIcons_mem_write img _ ICONS e he rfl
    · intro i j hi hj
      exact crop_pix_in img e.x e.y e.w e.h i j hex hey hi hj

/-- Witness for C3: a 1500 x 50 source, against which the wherigo region
at x = 1500 exceeds the right edge. -/
theorem c3_witness :
    wherigoDesc ∈ ICONS ∧
    (narrowImg.width < wherigoDesc.x + wherigoDesc.w ∨
      narrowImg.height < wherigoDesc.y + wherigoDesc.h) ∧
    ((runProcess (fullEnv narrowImg (fun _ => none))).exitCode = 0 ∧
     (outputPath wherigoDesc.name,
        crop narrowImg wherigoDesc.x wherigoDesc.y
          (wherigoDesc.x + wherigoDesc.w)
          (wherigoDesc.y + wherigoDesc.h)) ∈
       writesOf (runProcess (fullEnv narrowImg (fun _ => none))).trace ∧
     (∃ i j, i < wherigoDesc.w ∧ j < wherigoDesc.h ∧
       (narrowImg.width ≤ wherigoDesc.x + i ∨
         narrowImg.height ≤ wherigoDesc.y + j) ∧
       (crop narrowImg wherigoDesc.x wherigoDesc.y
          (wherigoDesc.x + wherigoDesc.w)
          (wherigoDesc.y + wherigoDesc.h)).pix i j = 0) ∧
     ∀ e ∈ ICONS, e.x + e.w ≤ narrowImg.width →
       e.y + e.h ≤ narrowImg.height →
       (outputPath e.name,
          crop narrowImg e.x e.y (e.x + e.w) (e.y + e.h)) ∈
         writesOf (runProcess (fullEnv narrowImg (fun _ => none))).trace ∧
       ∀ i j, i < e.w → j < e.h →
         (crop narrowImg e.x e.y (e.x + e.w) (e.y + e.h)).pix i j =
           narrowImg.pix (e.x + i) (e.y + j)) :=
  ⟨by decide, by decide,
    c3_out_of_bounds_icon_degraded narrowImg wherigoDesc (by decide)
      (by decide)⟩

/-- C8: a run is a deterministic function of its inputs and its writes
overwrite silently, so rerunning is idempotent: applying the run trace a
second time to the file system resulting from the first leaves every file
unchanged (byte-for-byte identical outputs), the run exits 0 whatever the
previous contents, and after the run each icon file holds exactly the
crop of its descriptor no matter what was at that path before. -/
theorem c8_rerun_is_idempotent (img : Img) (fs : FS) :
    (runProcess (fullEnv img (fun _ => none))).exitCode = 0 ∧
    applyTrace (applyTrace fs (runProcess (fullEnv img (fun _ => none))).trace)
        (runProcess (fullEnv img (fun _ => none))).trace =
      applyTrace fs (runProcess (fullEnv img (fun _ => none))).trace ∧
    ∀ d ∈ ICONS,
      applyTrace fs (runProcess (fullEnv img (fun _ => none))).trace
          (outputPath d.name) =
        some (crop img d.x d.y (d.x + d.w) (d.y + d.h)) := by
  refine ⟨rfl, applyTrace_idem _ _, ?_⟩
  intro d hd
  rw [applyTrace_eq_lookupLast, writesOf_fullEnv_none img,
    lookupLast_map (fun x => crop img x.x x.y (x.x + x.w) (x.y + x.h))
      ICONS d iconPaths_nodup hd]

/-- C9: in every environment, no file write precedes the creation of the
output directory (created with parents as needed), and a run only ever
creates or overwrites the 16 descriptor paths: any other path keeps its
previous content. -/
theorem c9_mkdir_precedes_writes_and_frame (env : Env) (fs : FS)
    (q : String) (hq : ∀ d ∈ ICONS, q ≠ outputPath d.name) :
    mkdirBeforeWrites (runProcess env).trace = true ∧
    (writesOf (runProcess env).trace ≠ [] →
      hasMkdir (runProcess env).trace = true) ∧
    applyTrace fs (runProcess env).trace q = fs q := by
  cases hpa : env.pilAvailable with
  | false =>
    have htr : runProcess env =
        ⟨[Ev.print pilErr1, Ev.print pilErr2], 1, 0⟩ := by
      simp [runProcess, hpa]
    rw [htr]
    exact ⟨rfl, fun h => absurd rfl h, rfl⟩
  | true =>
    cases hse : env.spriteExists with
    | false =>
      have htr : runProcess env = ⟨[Ev.print bannerLine, Ev.print sepLine,
          Ev.print spriteMissing1, Ev.print spriteMissing2,
          Ev.print spriteMissing3], 1, 0⟩ := by
        simp [runProcess, hpa, hse]
      rw [htr]
      exact ⟨rfl, fun h => absurd rfl h, rfl⟩
    | true =>
      cases hde : env.decoded with
      | none =>
        have htr : runProcess env = ⟨[Ev.print bannerLine, Ev.print sepLine,
            Ev.print spriteFound, Ev.mkdirOutput, Ev.print outDirLine,
            Ev.print (openErrLine env.decodeError)], 1, 0⟩ := by
          simp [runProcess, hpa, hse, hde]
        rw [htr]
        exact ⟨rfl, fun _ => rfl, rfl⟩
      | some sprite =>
        have htr : runProcess env = ⟨prefixEvents sprite ++
            (runIcons sprite env.save ICONS).1 ++
            summaryEvents (runIcons sprite env.save ICONS).2, 0,
            (runIcons sprite env.save ICONS).2⟩ := by
          simp [runProcess, hpa, hse, hde]
        rw [htr]
        refine ⟨rfl, fun _ => rfl, ?_⟩
        apply applyTrace_not_written
        intro p c hpc hq2
        have hw : writesOf (prefixEvents sprite ++
            (runIcons sprite env.save ICONS).1 ++
            summaryEvents (runIcons sprite env.save ICONS).2) =
            writesOf (runIcons sprite env.save ICONS).1 := by
          simp [writesOf_append, writesOf_summaryEvents,
            writesOf_prefixEvents]
        rw [hw] at hpc
        obtain ⟨d2, hd2, hp2, _⟩ :=
          writesOf_runIcons_mem sprite env.save ICONS p c hpc
        exact hq d2 hd2 (hq2.trans hp2)

/-- Witness for C9 at a run over wideImg and a stale path not named by
any descriptor. -/
theorem c9_witness :
    (∀ d ∈ ICONS, "stale.txt" ≠ outputPath d.name) ∧
    (mkdirBeforeWrites
        (runProcess (fullEnv wideImg (fun _ => none))).trace = true ∧
     (writesOf (runProcess (fullEnv wideImg (fun _ => none))).trace ≠ [] →
       hasMkdir (runProcess (fullEnv wideImg (fun _ => none))).trace =
         true) ∧
     applyTrace (fun _ => none)
         (runProcess (fullEnv wideImg (fun _ => none))).trace "stale.txt" =
       (fun _ => (none : Option Img)) "stale.txt") :=
  ⟨by decide,
    c9_mkdir_precedes_writes_and_frame (fullEnv wideImg (fun _ => none))
      (fun _ => none) "stale.txt" (by decide)⟩

/-- C7: after the loop, succeeded is at most total, total is 16, the
summary prints the all-succeeded line exactly when succeeded equals
total, otherwise it prints the line reporting how many icons failed, and
in both cases the last line printed is the output directory path. -/
theorem c7_summary_counts_and_text (img : Img)
    (save : String → Option String) :
    (runProcess (fullEnv img save)).successCount ≤ 16 ∧
    ICONS.length = 16 ∧
    (allOkLine ∈ printsOf (runProcess (fullEnv img save)).trace ↔
      (runProcess (fullEnv img save)).successCount = 16) ∧
    ((runProcess (fullEnv img save)).successCount ≠ 16 →
      failSummaryLine (16 - (runProcess (fullEnv img save)).successCount) ∈
        printsOf (runProcess (fullEnv img save)).trace) ∧
    (runProcess (fullEnv img save)).trace.getLast? =
      some (Ev.print ("   " ++ OUTPUT_DIR)) := by
  have hcount : (runProcess (fullEnv img save)).successCount =
      (runIcons img save ICONS).2 := rfl
  refine ⟨?_, icons_length, ?_, ?_, ?_⟩
  · exact le_trans (runIcons_count_le img save ICONS) (le_of_eq icons_length)
  · rw [printsOf_fullEnv]
    constructor
    · intro hmem
      have h1 := allOk_not_mem_prefix img
      have h2 := allOk_not_mem_runIcons img save ICONS
      simp only [List.mem_append, h1, h2, false_or, or_false] at hmem
      rw [hcount, ← icons_length]
      exact (allOk_mem_summary_iff _).mp hmem
    · intro hcnt
      have hc2 : (runIcons img save ICONS).2 = ICONS.length := by
        rw [icons_length, ← hcount]
        exact hcnt
      exact List.mem_append.mpr
        (Or.inr ((allOk_mem_summary_iff _).mpr hc2))
  · intro hne
    rw [printsOf_fullEnv]
    apply List.mem_append.mpr
    right
    have hne2 : (runIcons img save ICONS).2 ≠ ICONS.length := by
      rw [icons_length, ← hcount]
      exact hne
    have hmem := failLine_mem_summary (runIcons img save ICONS).2 hne2
    rw [hcount, ← icons_length]
    exact hmem
  · rw [trace_fullEnv,
      List.getLast?_append_of_ne_nil _ (summaryEvents_ne_nil _)]
    exact getLast_summaryEvents _

end GeocacheIcons
